import Mathlib

/-! Shallow embedding of the conversational intake flow of `src/main.py`
(tea-tasting bot): the FSM draft, the step marker, the per-step message
and callback handlers the verified claims touch, the aggregate assembly
(`finalize_save`) as an operation list executed against a transactional
store, and the ownership-guarded card/update/delete handlers.

Conventions of the embedding:
* aiogram's `FSMContext` data dict is the `Draft` structure; a key that was
  never written reads as its default (`none`, `[]`, `0`, resp. `1` for
  `infusion_n`), exactly as the source's `data.get(key, default)` calls do;
  `state.update_data(...)` is a record update, `state.set_state` sets the
  `step` field, `state.clear()` resets the whole `Session` to defaults.
* Python `list.remove` removes the first occurrence: `List.erase`.
* Python indexing `xs[i]` with an `Int` index: `pyIndex` (negative indices
  address from the end; anything else raises `IndexError`).  A handler that
  can raise an uncaught exception is embedded as returning `Option`:
  `none` means the handler died with an exception and no state was written.
* Python `txt.isdigit()` / `int(txt)` on digit-only text: `pyIsdigit` /
  `pyParseNat` (ASCII digits; the unicode-digit extras of `str.isdigit`
  are irrelevant to the flow's inputs).
* `float` draft fields (`grams`) are carried opaquely as `Option Rat`:
  no claim computes with them, they are only stored and copied.
-/

namespace TeaBot

/-- Vocabulary `CATEGORIES` from `src/main.py`. -/
def CATEGORIES : List String :=
  ["Зелёный", "Белый", "Красный", "Улун", "Шу Пуэр", "Шен Пуэр", "Хэй Ча", "Другое"]

/-- Vocabulary `EFFECTS` from `src/main.py`: vocabulary of the "effects" multi-select. -/
def EFFECTS : List String :=
  ["Тепло", "Охлаждение", "Расслабление", "Фокус",
   "Бодрость", "Тонус", "Спокойствие", "Сонливость"]

/-- Vocabulary `SCENARIOS` from `src/main.py`: vocabulary of the "scenarios" multi-select. -/
def SCENARIOS : List String :=
  ["Отдых", "Работа/учеба", "Творчество", "Медитация", "Общение", "Прогулка"]

/-- Vocabulary `DESCRIPTORS` from `src/main.py`: aroma/taste descriptor vocabulary. -/
def DESCRIPTORS : List String :=
  ["сухофрукты", "мёд", "хлебные", "цветы", "орех", "древесный", "дымный",
   "ягоды", "фрукты", "травянистый", "овощные", "пряный", "землистый"]

/-- Vocabulary `AFTERTASTE_SET` from `src/main.py`: aftertaste vocabulary. -/
def AFTERTASTE_SET : List String :=
  ["сладкий", "фруктовый", "ягодный", "цветочный", "цитрусовый",
   "кондитерский", "хлебный", "древесный", "пряный", "горький",
   "минеральный", "овощной", "землистый"]

/-- The aiogram FSM states of the intake flow (`NewTasting`, `InfusionState`,
`EffectsScenarios`, `RatingSummary`, `PhotoFlow` in `src/main.py`). -/
inductive FlowState where
  | name | year | region | category | grams | temp_c | tasted_at | gear
  | aroma_dry | aroma_warmed
  | inf_seconds | inf_color | inf_taste | inf_special | inf_body | inf_aftertaste
  | effects | scenarios
  | rating | summary
  | photos
  deriving DecidableEq, Repr

/-- One completed infusion sub-record, as the dict built in
`append_current_infusion_and_prompt` in `src/main.py`. -/
structure InfusionRec where
  n : Nat
  seconds : Option Nat := none
  liquor_color : Option String := none
  taste : Option String := none
  special_notes : Option String := none
  body : Option String := none
  aftertaste : Option String := none
  deriving DecidableEq, Repr

/-- The FSM draft: the key/value data of one session's `FSMContext`.
Field defaults are the values `data.get(key, default)` yields for an
absent key in `src/main.py` (`data.get("infusion_n", 1)`,
`data.get("rating", 0)`, `data.get("effects", [])`, ...). -/
structure Draft where
  user_id : Option Nat := none
  name : Option String := none
  year : Option Nat := none
  region : Option String := none
  category : Option String := none
  grams : Option Rat := none
  temp_c : Option Int := none
  tasted_at : Option String := none
  gear : Option String := none
  aroma_dry : Option String := none
  aroma_warmed : Option String := none
  aroma_after : Option String := none
  aroma_dry_sel : List String := []
  aroma_warmed_sel : List String := []
  effects : List String := []
  scenarios : List String := []
  rating : Nat := 0
  summary : Option String := none
  infusions : List InfusionRec := []
  infusion_n : Nat := 1
  cur_seconds : Option Nat := none
  cur_color : Option String := none
  cur_taste : Option String := none
  cur_special : Option String := none
  cur_body : Option String := none
  cur_aftertaste : Option String := none
  cur_taste_sel : List String := []
  cur_aftertaste_sel : List String := []
  awaiting_custom_eff : Bool := false
  awaiting_custom_scn : Bool := false
  awaiting_custom_ad : Bool := false
  awaiting_custom_aw : Bool := false
  awaiting_custom_taste : Bool := false
  awaiting_custom_after : Bool := false
  awaiting_custom_cat : Bool := false
  awaiting_custom_body : Bool := false
  new_photos : List String := []
  deriving DecidableEq, Repr

/-- One user session: the current FSM state marker plus the draft.
`state.clear()` resets both (`{ step := none, draft := {} }`). -/
structure Session where
  step : Option FlowState := none
  draft : Draft := {}
  deriving DecidableEq, Repr

/-- Python list indexing `xs[i]` for `i : Int`: a non-negative in-range
index reads directly, a negative index in `[-len, 0)` reads from the end,
anything else raises `IndexError` (here: `none`). -/
def pyIndex (xs : List String) (i : Int) : Option String :=
  if 0 ≤ i ∧ i < xs.length then xs.get? i.toNat
  else if -(xs.length : Int) ≤ i ∧ i < 0 then xs.get? (xs.length - (-i).toNat)
  else none

/-- Python `txt.strip()`: drop leading and trailing whitespace. -/
def pyStrip (s : String) : String :=
  ⟨((s.data.dropWhile Char.isWhitespace).reverse.dropWhile Char.isWhitespace).reverse⟩

/-- Python `txt.isdigit()` (ASCII digits): non-empty and all digits. -/
def pyIsdigit (t : String) : Bool :=
  !t.data.isEmpty && t.data.all Char.isDigit

/-- Python `int(txt)` on a digit-only string. -/
def pyParseNat (t : String) : Nat :=
  t.data.foldl (fun acc c => acc * 10 + (c.toNat - 48)) 0

/-- The shared toggle logic of every multi-select handler in `src/main.py`:
`if item in selected: selected.remove(item) else: selected.append(item)`. -/
def toggleItem (item : String) (selected : List String) : List String :=
  if item ∈ selected then selected.erase item else selected ++ [item]

/-- Python `sep.join(xs)`. -/
def pyJoin (sep : String) : List String → String
  | [] => ""
  | [x] => x
  | x :: y :: xs => x ++ sep ++ pyJoin sep (y :: xs)

/-- Python `", ".join(selected) if selected else None`. -/
def joinOrNone (sep : String) (selected : List String) : Option String :=
  if selected.isEmpty then none else some (pyJoin sep selected)

/-- Python `x or None` on an already-joined string (`",".join(...) or None`). -/
def strOrNone (s : String) : Option String :=
  if s = "" then none else some s

/-- Python `data.get(key) or None` for an optional string field. -/
def optOrNone (s : Option String) : Option String :=
  match s with
  | none => none
  | some v => strOrNone v

/-- Handler `start_new` from `src/main.py`: `state.clear()`, then `update_data`
with the listed initial keys, then `set_state(NewTasting.name)`. -/
def start_new (_s : Session) (uid : Nat) : Session :=
  let cleared : Session := { step := none, draft := {} }
  { cleared with
    draft := { cleared.draft with
      user_id := some uid, infusions := [], effects := [], scenarios := [],
      infusion_n := 1, aroma_dry_sel := [], aroma_warmed_sel := [],
      cur_taste_sel := [], cur_aftertaste_sel := [] },
    step := some FlowState.name }

/-- Handler `cancel_cmd` from `src/main.py` (registered before every state handler,
so it fires at any step): `state.clear()`, an acknowledgement message, no
storage access — the database passes through untouched. -/
def cancel_cmd (_s : Session) (db : α) : Session × α × String :=
  ({ step := none, draft := {} }, db, "Ок, сбросил. Возвращаю в меню.")

/-- Handler `name_in` from `src/main.py` (message handler of `NewTasting.name`):
stores the stripped text as `name` — with no emptiness check — and always
advances to the year step. -/
def name_in (text : String) (s : Session) : Session × String :=
  ({ s with draft := { s.draft with name := some (pyStrip text) },
            step := some FlowState.year },
   "📅 Год сбора? Можно пропустить.")

/-- Handler `year_in` from `src/main.py` (message handler of `NewTasting.year`):
`year = int(txt) if txt.isdigit() else None`, store, advance to region. -/
def year_in (text : String) (s : Session) : Session × String :=
  let txt := pyStrip text
  let year : Option Nat := if pyIsdigit txt then some (pyParseNat txt) else none
  ({ s with draft := { s.draft with year := year },
            step := some FlowState.region },
   "🗺️ Регион? Можно пропустить.")

/-- A decoded multi-select callback payload: the `namespace:tail` tails
`"done"`, `"other"` and a numeric index (`int(tail)` in the source). -/
inductive ToggleEvent where
  | done
  | other
  | index (i : Int)
  deriving DecidableEq, Repr

/-- Helper `append_current_infusion_and_prompt` from `src/main.py`: flush the
current `cur_*` fields into one sub-record dict carrying
`n = data.get("infusion_n", 1)`, append it to `infusions`, bump
`infusion_n` to `n + 1` and reset the per-infusion scratch fields. -/
def append_current_infusion (s : Session) : Session :=
  let d := s.draft
  let inf : InfusionRec :=
    { n := d.infusion_n, seconds := d.cur_seconds, liquor_color := d.cur_color,
      taste := d.cur_taste, special_notes := d.cur_special, body := d.cur_body,
      aftertaste := d.cur_aftertaste }
  { s with draft := { d with
      infusions := d.infusions ++ [inf],
      infusion_n := inf.n + 1,
      cur_seconds := none, cur_color := none, cur_taste := none,
      cur_special := none, cur_body := none, cur_aftertaste := none,
      cur_taste_sel := [], cur_aftertaste_sel := [],
      awaiting_custom_taste := false, awaiting_custom_after := false } }

/-- Handler `eff_toggle_or_done` from `src/main.py` (callbacks `eff:*` of the
effects multi-select).  `done` moves on to the scenarios step without
touching the selection; `other` arms the free-text capture; a numeric tail
indexes `EFFECTS[idx]` **without a bounds check** (`none` = `IndexError`)
and toggles the addressed item in `effects`. -/
def eff_toggle_or_done (ev : ToggleEvent) (s : Session) : Option Session :=
  match ev with
  | .done => some { s with step := some FlowState.scenarios }
  | .other => some { s with draft := { s.draft with awaiting_custom_eff := true } }
  | .index i =>
    match pyIndex EFFECTS i with
    | none => none
    | some item =>
      some { s with draft := { s.draft with effects := toggleItem item s.draft.effects } }

/-- Handler `scn_toggle_or_done` from `src/main.py` (callbacks `scn:*`). -/
def scn_toggle_or_done (ev : ToggleEvent) (s : Session) : Option Session :=
  match ev with
  | .done => some { s with step := some FlowState.rating }
  | .other => some { s with draft := { s.draft with awaiting_custom_scn := true } }
  | .index i =>
    match pyIndex SCENARIOS i with
    | none => none
    | some item =>
      some { s with draft := { s.draft with scenarios := toggleItem item s.draft.scenarios } }

/-- Handler `aroma_dry_toggle` from `src/main.py` (callbacks `ad:*`): `done` joins
the selection into `aroma_dry` and advances to the warmed-leaf step. -/
def aroma_dry_toggle (ev : ToggleEvent) (s : Session) : Option Session :=
  match ev with
  | .done => some { s with
      draft := { s.draft with aroma_dry := joinOrNone ", " s.draft.aroma_dry_sel },
      step := some FlowState.aroma_warmed }
  | .other => some { s with draft := { s.draft with awaiting_custom_ad := true } }
  | .index i =>
    match pyIndex DESCRIPTORS i with
    | none => none
    | some item =>
      some { s with draft := { s.draft with aroma_dry_sel := toggleItem item s.draft.aroma_dry_sel } }

/-- Handler `aroma_warmed_toggle` from `src/main.py` (callbacks `aw:*`): `done`
joins into `aroma_warmed` and enters the infusion loop (`InfusionState.seconds`). -/
def aroma_warmed_toggle (ev : ToggleEvent) (s : Session) : Option Session :=
  match ev with
  | .done => some { s with
      draft := { s.draft with aroma_warmed := joinOrNone ", " s.draft.aroma_warmed_sel },
      step := some FlowState.inf_seconds }
  | .other => some { s with draft := { s.draft with awaiting_custom_aw := true } }
  | .index i =>
    match pyIndex DESCRIPTORS i with
    | none => none
    | some item =>
      some { s with draft := { s.draft with aroma_warmed_sel := toggleItem item s.draft.aroma_warmed_sel } }

/-- Handler `taste_toggle` from `src/main.py` (callbacks `taste:*`): `done` joins
into `cur_taste` and advances to the special-notes step. -/
def taste_toggle (ev : ToggleEvent) (s : Session) : Option Session :=
  match ev with
  | .done => some { s with
      draft := { s.draft with cur_taste := joinOrNone ", " s.draft.cur_taste_sel,
                              awaiting_custom_taste := false },
      step := some FlowState.inf_special }
  | .other => some { s with draft := { s.draft with awaiting_custom_taste := true } }
  | .index i =>
    match pyIndex DESCRIPTORS i with
    | none => none
    | some item =>
      some { s with draft := { s.draft with cur_taste_sel := toggleItem item s.draft.cur_taste_sel } }

/-- Handler `aftertaste_toggle` from `src/main.py` (callbacks `aft:*`): `done`
joins into `cur_aftertaste` and flushes the finished sub-record via
`append_current_infusion_and_prompt`. -/
def aftertaste_toggle (ev : ToggleEvent) (s : Session) : Option Session :=
  match ev with
  | .done =>
    some (append_current_infusion { s with
      draft := { s.draft with cur_aftertaste := joinOrNone ", " s.draft.cur_aftertaste_sel,
                              awaiting_custom_after := false } })
  | .other => some { s with draft := { s.draft with awaiting_custom_after := true } }
  | .index i =>
    match pyIndex AFTERTASTE_SET i with
    | none => none
    | some item =>
      some { s with draft := { s.draft with cur_aftertaste_sel := toggleItem item s.draft.cur_aftertaste_sel } }

/-- Handler `eff_custom` from `src/main.py` (message handler of the effects step):
ignored unless the "other" capture is armed; a non-empty stripped text is
appended to `effects` **verbatim** — no deduplication against the
vocabulary or against already-selected entries. -/
def eff_custom (text : String) (s : Session) : Session :=
  if s.draft.awaiting_custom_eff = false then s
  else
    let txt := pyStrip text
    let selected := if txt = "" then s.draft.effects else s.draft.effects ++ [txt]
    { s with draft := { s.draft with effects := selected, awaiting_custom_eff := false },
             step := some FlowState.effects }

/-- Handler `prompt_photos` from `src/main.py`: resets `new_photos` to `[]` and
enters the photo-collection step. -/
def prompt_photos (s : Session) : Session :=
  { s with draft := { s.draft with new_photos := [] },
           step := some FlowState.photos }

/-- Handler `photo_add` from `src/main.py` (message handler of `PhotoFlow.photos`).
The event carries the incoming photo's file id, or `none` for a non-photo
message.  At the hard cap of 3 the message is rejected with an explicit
re-prompt and the list is left untouched; below the cap the id is appended
and a progress message is sent. -/
def photo_add (photo : Option String) (s : Session) : Session × String :=
  match photo with
  | none => (s, "Пришли фото (или жми «Готово» / «Пропустить»).")
  | some fid =>
    if 3 ≤ s.draft.new_photos.length then
      (s, "Лимит 3 фото. Жми «Готово» или «Пропустить».")
    else
      ({ s with draft := { s.draft with new_photos := s.draft.new_photos ++ [fid] } },
       "Фото сохранено (" ++ toString (s.draft.new_photos.length + 1) ++
         "/3). Можешь прислать ещё или нажми «Готово».")

/-- A persisted `tastings` row (`class Tasting` in `src/main.py`), with the
fields `finalize_save` writes. -/
structure TastingRow where
  id : Nat
  user_id : Option Nat := none
  name : Option String := none
  year : Option Nat := none
  region : Option String := none
  category : Option String := none
  grams : Option Rat := none
  temp_c : Option Int := none
  tasted_at : Option String := none
  gear : Option String := none
  aroma_dry : Option String := none
  aroma_warmed : Option String := none
  aroma_after : Option String := none
  effects_csv : Option String := none
  scenarios_csv : Option String := none
  rating : Nat := 0
  summary : Option String := none
  deriving DecidableEq, Repr

/-- A persisted `infusions` row (`class Infusion` in `src/main.py`). -/
structure InfusionRow where
  tasting_id : Nat
  n : Nat
  seconds : Option Nat := none
  liquor_color : Option String := none
  taste : Option String := none
  special_notes : Option String := none
  body : Option String := none
  aftertaste : Option String := none
  deriving DecidableEq, Repr

/-- A persisted `photos` row (`class Photo` in `src/main.py`). -/
structure PhotoRow where
  tasting_id : Nat
  file_id : String
  deriving DecidableEq, Repr

/-- The visible (committed) database state. `next_id` models the
autoincrement primary key assigned to the parent at `s.flush()`. -/
structure DB where
  tastings : List TastingRow := []
  infusions : List InfusionRow := []
  photos : List PhotoRow := []
  next_id : Nat := 1
  deriving DecidableEq, Repr

/-- Rows added to the open SQLAlchemy session but not yet committed:
invisible until `commit`, discarded when the session unwinds on an
exception (`with SessionLocal() as s:` closes without committing). -/
structure Pending where
  tastings : List TastingRow := []
  infusions : List InfusionRow := []
  photos : List PhotoRow := []
  deriving DecidableEq, Repr

/-- One persistence operation issued by `finalize_save`. -/
inductive Op where
  | add_tasting (r : TastingRow)
  | add_infusion (r : InfusionRow)
  | add_photo (r : PhotoRow)
  | commit
  deriving DecidableEq, Repr

/-- Committing: the pending rows become visible; the parent ids consumed
advance the autoincrement counter. -/
def applyPending (db : DB) (p : Pending) : DB :=
  { tastings := db.tastings ++ p.tastings,
    infusions := db.infusions ++ p.infusions,
    photos := db.photos ++ p.photos,
    next_id := db.next_id + p.tastings.length }

/-- Run an operation list against the store.  `fail = some k` makes the
`k`-th operation raise before taking effect: execution stops there and the
pending (uncommitted) rows are rolled back, exactly as closing the
SQLAlchemy session without a commit does. -/
def runOps : DB → Pending → List Op → Option Nat → DB
  | db, _, _, some 0 => db
  | db, _, [], _ => db
  | db, p, op :: rest, fail =>
    let fail' : Option Nat := fail.map (fun k => k - 1)
    match op with
    | .add_tasting r => runOps db { p with tastings := p.tastings ++ [r] } rest fail'
    | .add_infusion r => runOps db { p with infusions := p.infusions ++ [r] } rest fail'
    | .add_photo r => runOps db { p with photos := p.photos ++ [r] } rest fail'
    | .commit => runOps (applyPending db p) {} rest fail'

/-- The parent row `finalize_save` builds from the draft (`Tasting(...)`
constructor call in `src/main.py`): `",".join(effects) or None` for the
tag fields, `data.get("summary") or None`, `data.get("rating", 0)`. -/
def finalize_parent (d : Draft) (tid : Nat) : TastingRow :=
  { id := tid, user_id := d.user_id, name := d.name, year := d.year,
    region := d.region, category := d.category, grams := d.grams,
    temp_c := d.temp_c, tasted_at := d.tasted_at, gear := d.gear,
    aroma_dry := d.aroma_dry, aroma_warmed := d.aroma_warmed,
    aroma_after := d.aroma_after,
    effects_csv := strOrNone (pyJoin "," d.effects),
    scenarios_csv := strOrNone (pyJoin "," d.scenarios),
    rating := d.rating, summary := optOrNone d.summary }

/-- The child row built from one flushed sub-record dict
(`Infusion(tasting_id=t.id, n=inf["n"], ...)`). -/
def infusion_row (tid : Nat) (inf : InfusionRec) : InfusionRow :=
  { tasting_id := tid, n := inf.n, seconds := inf.seconds,
    liquor_color := inf.liquor_color, taste := inf.taste,
    special_notes := inf.special_notes, body := inf.body,
    aftertaste := inf.aftertaste }

/-- Everything `finalize_save` inserts for one draft: the parent, one row
per recorded sub-record (sequence numbers preserved), one row per photo. -/
def finalize_tx (d : Draft) (tid : Nat) : Pending :=
  { tastings := [finalize_parent d tid],
    infusions := d.infusions.map (infusion_row tid),
    photos := d.new_photos.map (fun fid => { tasting_id := tid, file_id := fid }) }

/-- The adds `finalize_save` issues in source order (parent first —
`s.add(t); s.flush()` — then children, then photos), before the single
commit. -/
def finalize_body (d : Draft) (tid : Nat) : List Op :=
  Op.add_tasting (finalize_parent d tid) ::
    (d.infusions.map (fun inf => Op.add_infusion (infusion_row tid inf)) ++
     d.new_photos.map (fun fid => Op.add_photo { tasting_id := tid, file_id := fid }))

/-- Assembly `finalize_save` from `src/main.py` as its persistence-operation trace:
all adds inside one session, the one and only `s.commit()` last. -/
def finalize_save_ops (d : Draft) (tid : Nat) : List Op :=
  finalize_body d tid ++ [Op.commit]

/-- Assembly `finalize_save` run against a store, failing (or not) at operation
`fail`; the parent id is the current autoincrement value. -/
def finalize_save (d : Draft) (db : DB) (fail : Option Nat) : DB :=
  runOps db {} (finalize_save_ops d db.next_id) fail

/-- Lookup `s.get(Tasting, tid)`: row lookup by primary key. -/
def find_tasting (db : DB) (tid : Nat) : Option TastingRow :=
  db.tastings.find? (fun r => r.id == tid)

/-- The shared guard `if not t or t.user_id != call.from_user.id` of
`open_card`, `del_cb`, `del_ok_cb` and `update_tasting_fields`: true for a
missing row and for a row owned by someone else alike. -/
def noAccess (t : Option TastingRow) (uid : Nat) : Bool :=
  match t with
  | none => true
  | some r => r.user_id != some uid

/-- Cascade delete of a parent: the children and photos referencing it go
with it (`cascade="all, delete-orphan"` on the ORM relationships). -/
def deleteCascade (db : DB) (tid : Nat) : DB :=
  { db with
    tastings := db.tastings.filter (fun r => r.id ≠ tid),
    infusions := db.infusions.filter (fun r => r.tasting_id ≠ tid),
    photos := db.photos.filter (fun r => r.tasting_id ≠ tid) }

/-- Handler `del_ok_cb` from `src/main.py`: the delete-confirmation callback.
A missing or non-owned record yields the generic "Нет доступа" reply and
no change; otherwise the record is deleted (with cascade) and committed. -/
def del_ok_cb (db : DB) (uid tid : Nat) : DB × String :=
  if noAccess (find_tasting db tid) uid then
    (db, "Нет доступа к этой записи.")
  else
    (deleteCascade db tid, "Удалил.")

/-- What `open_card` from `src/main.py` renders: the generic not-found
reply, or the fetched parent with its ordered children and photo ids
(the string formatting of `build_card_text` is presentation plumbing). -/
inductive CardView where
  | not_found
  | card (t : TastingRow) (infs : List InfusionRow) (photo_ids : List String)
  deriving DecidableEq, Repr

/-- Handler `open_card` from `src/main.py`: a read-only handler; a missing or
non-owned id is answered with the same "Запись не найдена." reply. -/
def open_card (db : DB) (uid tid : Nat) : CardView :=
  match find_tasting db tid with
  | none => CardView.not_found
  | some t =>
    if t.user_id != some uid then CardView.not_found
    else CardView.card t
      ((db.infusions.filter (fun r => r.tasting_id = tid)).mergeSort
        (fun a b => a.n ≤ b.n))
      ((db.photos.filter (fun r => r.tasting_id = tid)).map (fun r => r.file_id))

/-- Handler `update_tasting_fields` from `src/main.py` (the single-field edit
commit): `False` — with the store untouched — for an empty update set, a
missing row, or a foreign owner; otherwise the setters are applied to the
row and committed. -/
def update_tasting_fields (db : DB) (tid uid : Nat)
    (updates : List (TastingRow → TastingRow)) : DB × Bool :=
  if updates.isEmpty then (db, false)
  else
    match find_tasting db tid with
    | none => (db, false)
    | some t =>
      if t.user_id != some uid then (db, false)
      else
        ({ db with tastings := db.tastings.map (fun r =>
             if r.id = tid then updates.foldl (fun acc f => f acc) r else r) },
         true)

/-- The per-infusion scratch state one pass through the sub-record steps
(`inf_seconds` … `aftertaste_toggle`) may leave in the draft.  Those
handlers write only these fields — never `infusions` or `infusion_n`. -/
structure CurFields where
  cur_seconds : Option Nat := none
  cur_color : Option String := none
  cur_taste : Option String := none
  cur_special : Option String := none
  cur_body : Option String := none
  cur_aftertaste : Option String := none
  cur_taste_sel : List String := []
  cur_aftertaste_sel : List String := []
  awaiting_custom_taste : Bool := false
  awaiting_custom_after : Bool := false
  awaiting_custom_body : Bool := false
  deriving DecidableEq, Repr

/-- Overwrite the draft's per-infusion scratch fields with the outcome of
one arbitrary pass through the sub-record steps. -/
def apply_infusion_steps (c : CurFields) (s : Session) : Session :=
  { s with draft := { s.draft with
      cur_seconds := c.cur_seconds, cur_color := c.cur_color,
      cur_taste := c.cur_taste, cur_special := c.cur_special,
      cur_body := c.cur_body, cur_aftertaste := c.cur_aftertaste,
      cur_taste_sel := c.cur_taste_sel, cur_aftertaste_sel := c.cur_aftertaste_sel,
      awaiting_custom_taste := c.awaiting_custom_taste,
      awaiting_custom_after := c.awaiting_custom_after,
      awaiting_custom_body := c.awaiting_custom_body } }

/-- The repeated-sub-record loop: `K` iterations, each an arbitrary pass
through the sub-record steps followed by the flush in
`append_current_infusion_and_prompt` (the "ещё пролив" branch re-enters,
so iteration `k` records with the counter value reached so far). -/
def record_loop : Nat → (Nat → CurFields) → Session → Session
  | 0, _, s => s
  | k + 1, curs, s =>
    append_current_infusion (apply_infusion_steps (curs k) (record_loop k curs s))

/-- Concatenation of pending row sets. -/
def pendAppend (p q : Pending) : Pending :=
  { tastings := p.tastings ++ q.tastings,
    infusions := p.infusions ++ q.infusions,
    photos := p.photos ++ q.photos }

/-- The pending rows a (commit-free) operation list accumulates. -/
def opsPending : List Op → Pending
  | [] => {}
  | op :: rest =>
    let q := opsPending rest
    match op with
    | .add_tasting r => { q with tastings := r :: q.tastings }
    | .add_infusion r => { q with infusions := r :: q.infusions }
    | .add_photo r => { q with photos := r :: q.photos }
    | .commit => q

/-- A concrete draft with one sub-record and one photo, for the C5 witness. -/
def sample_draft : Draft :=
  { name := some "x", infusions := [{ n := 1, seconds := some 10 }], new_photos := ["f1"] }

/-- A store with one record owned by user 1, for the C6 witness. -/
def sample_db : DB :=
  { tastings := [{ id := 5, user_id := some 1, name := some "t" }], next_id := 6 }

/-- A session mid-"other" capture with "Тепло" already selected, for the
C10 witness. -/
def c10_before : Session :=
  { draft := { effects := ["Тепло"], awaiting_custom_eff := true } }

/-- A session whose selection holds "Тепло" twice, for the C10 witness. -/
def c10_dup : Session := { draft := { effects := ["Тепло", "Тепло"] } }

/-! Helper lemmas. -/

/-- A Python index at or beyond the list length (or below `-len`) raises:
`pyIndex` yields `none` there. -/
theorem pyIndex_eq_none (xs : List String) (i : Int)
    (h : (xs.length : Int) ≤ i ∨ i < -(xs.length : Int)) : pyIndex xs i = none := by
  unfold pyIndex
  rcases h with h | h
  · rw [if_neg (by omega), if_neg (by omega)]
  · rw [if_neg (by omega), if_neg (by omega)]

/-! Claim theorems. -/

/-- C1: the spec's required-field gate — "submitting an empty string at the
required name step leaves the draft's name field unset and the step marker
unchanged" — is **not** what `name_in` does: a whitespace-only message at
`NewTasting.name` stores the empty string as the name and advances the
step marker to the year step (the edit flow, by contrast, rejects an empty
name with "Название не может быть пустым."). -/
theorem name_in_empty_stores_and_advances :
    name_in "   " (start_new { } 5)
      = ({ step := some FlowState.year,
           draft := { user_id := some 5, name := some "" } },
         "📅 Год сбора? Можно пропустить.") := by
  rfl

/-- C2 counterexample: the claim says an out-of-range toggle index "is
guarded by a bounds check: it never raises".  There is no guard:
`eff_toggle_or_done` with index 100 (vocabulary length 8) dies with
`IndexError` (embedded as `none`). -/
theorem eff_toggle_out_of_range_raises :
    eff_toggle_or_done (ToggleEvent.index 100) (start_new { } 1) = none := by
  rfl

/-- C2 (amended): no multi-select toggle handler bounds-checks its index.
An index `≥ len` (or `< -len`) raises `IndexError` inside the handler —
before any state write, so the stored selection is untouched, but the
handler does not complete; an in-range index toggles the addressed item
(shown for the effects handler). -/
theorem toggle_handlers_unguarded (s : Session) (i : Int) :
    ((EFFECTS.length : Int) ≤ i ∨ i < -(EFFECTS.length : Int) →
        eff_toggle_or_done (ToggleEvent.index i) s = none)
    ∧ ((SCENARIOS.length : Int) ≤ i ∨ i < -(SCENARIOS.length : Int) →
        scn_toggle_or_done (ToggleEvent.index i) s = none)
    ∧ ((DESCRIPTORS.length : Int) ≤ i ∨ i < -(DESCRIPTORS.length : Int) →
        aroma_dry_toggle (ToggleEvent.index i) s = none)
    ∧ ((DESCRIPTORS.length : Int) ≤ i ∨ i < -(DESCRIPTORS.length : Int) →
        aroma_warmed_toggle (ToggleEvent.index i) s = none)
    ∧ ((DESCRIPTORS.length : Int) ≤ i ∨ i < -(DESCRIPTORS.length : Int) →
        taste_toggle (ToggleEvent.index i) s = none)
    ∧ ((AFTERTASTE_SET.length : Int) ≤ i ∨ i < -(AFTERTASTE_SET.length : Int) →
        aftertaste_toggle (ToggleEvent.index i) s = none)
    ∧ (∀ item, pyIndex EFFECTS i = some item →
        eff_toggle_or_done (ToggleEvent.index i) s
          = some { s with draft := { s.draft with
              effects := toggleItem item s.draft.effects } }) := by
  refine ⟨fun h => ?_, fun h => ?_, fun h => ?_, fun h => ?_, fun h => ?_,
    fun h => ?_, fun item h => ?_⟩
  · simp only [eff_toggle_or_done, pyIndex_eq_none EFFECTS i h]
  · simp only [scn_toggle_or_done, pyIndex_eq_none SCENARIOS i h]
  · simp only [aroma_dry_toggle, pyIndex_eq_none DESCRIPTORS i h]
  · simp only [aroma_warmed_toggle, pyIndex_eq_none DESCRIPTORS i h]
  · simp only [taste_toggle, pyIndex_eq_none DESCRIPTORS i h]
  · simp only [aftertaste_toggle, pyIndex_eq_none AFTERTASTE_SET i h]
  · simp only [eff_toggle_or_done, h]

/-- C2 witness: the amended theorem applied at index 100 on a fresh
session. -/
theorem toggle_handlers_unguarded_witness :
    eff_toggle_or_done (ToggleEvent.index 100) (start_new { } 2) = none :=
  (toggle_handlers_unguarded (start_new { } 2) 100).1 (Or.inl (by decide))

/-- C7: an explicit cancel (`/cancel` or "сброс", registered ahead of
every state handler, hence live at any step) resets the session to the
cleared state, touches no storage (the store passes through unchanged and
`finalize_save` is never invoked on the way), and a subsequent
"start new entry" yields the one canonical fresh draft — every field at
its default except the caller's identity — independent of whatever the
cancelled draft held. -/
theorem cancel_clears_and_start_is_fresh :
    (∀ (s : Session) (db : DB),
        cancel_cmd s db
          = ({ step := none, draft := { } }, db, "Ок, сбросил. Возвращаю в меню."))
    ∧ (∀ (s : Session) (uid : Nat),
        start_new s uid
          = { step := some FlowState.name, draft := { user_id := some uid } }) :=
  ⟨fun _ _ => rfl, fun _ _ => rfl⟩

/-- C8: at the optional year step, digit-only text (after stripping) is
parsed with `int` and stored, anything else silently stores `None`; in
both cases the flow advances to the region step and the only message sent
is the next step's prompt — never a failure indication. -/
theorem year_in_silent_null (text : String) (s : Session) :
    (pyIsdigit (pyStrip text) = true →
        (year_in text s).1.draft.year = some (pyParseNat (pyStrip text)))
    ∧ (pyIsdigit (pyStrip text) = false →
        (year_in text s).1.draft.year = none)
    ∧ (year_in text s).1.step = some FlowState.region
    ∧ (year_in text s).2 = "🗺️ Регион? Можно пропустить." := by
  refine ⟨fun h => ?_, fun h => ?_, rfl, rfl⟩
  · simp only [year_in, h, if_true]
  · simp only [year_in, h, Bool.false_eq_true, if_false]

/-- C8 witness: "1990" stores the parsed year, a non-numeric text stores
null, both advance to the region step. -/
theorem year_in_silent_null_witness :
    (year_in " 1990 " (start_new { } 3)).1.draft.year = some 1990
    ∧ (year_in "не помню" (start_new { } 3)).1.draft.year = none
    ∧ (year_in "не помню" (start_new { } 3)).1.step = some FlowState.region := by
  refine ⟨?_, ?_, (year_in_silent_null "не помню" (start_new { } 3)).2.2.1⟩
  · exact ((year_in_silent_null " 1990 " (start_new { } 3)).1 (by decide)).trans (by decide)
  · exact (year_in_silent_null "не помню" (start_new { } 3)).2.1 (by decide)

/-- C3 counterexample: double-toggle is **not** an involution on the
selection.  The free-text "other" path can put a duplicate of a vocabulary
item into the selection (here "Тепло" twice, via two custom entries);
`list.remove` then only removes the first occurrence, so toggling item 0
twice turns `["Тепло", "Тепло"]` into `[]` — not the prior state (and not
even the prior set). -/
theorem eff_double_toggle_duplicate_cx :
    (((eff_toggle_or_done ToggleEvent.other (start_new { } 7)).map (eff_custom "Тепло")
        |>.bind (eff_toggle_or_done ToggleEvent.other) |>.map (eff_custom "Тепло")).map
          (fun s => s.draft.effects) = some ["Тепло", "Тепло"])
    ∧ (((eff_toggle_or_done ToggleEvent.other (start_new { } 7)).map (eff_custom "Тепло")
        |>.bind (eff_toggle_or_done ToggleEvent.other) |>.map (eff_custom "Тепло")
        |>.bind (eff_toggle_or_done (ToggleEvent.index 0))
        |>.bind (eff_toggle_or_done (ToggleEvent.index 0))).map
          (fun s => s.draft.effects) = some [])
    ∧ (["Тепло", "Тепло"] ≠ ([] : List String)) :=
  ⟨rfl, rfl, by decide⟩

/-- C3 (amended): provided the toggled item occurs at most once in the
selection — which duplicates from the "other" path can violate — toggling
it twice restores the selection up to permutation (a removed item is
re-appended at the end, not at its old position), and a single toggle is
an XOR on membership: a selected item is removed, an unselected one is
added; when the item was not selected, the double toggle even restores the
list exactly. -/
theorem toggle_twice_restores (sel : List String) (item : String)
    (hcount : sel.count item ≤ 1) :
    (toggleItem item (toggleItem item sel)).Perm sel
    ∧ (item ∈ sel → item ∉ toggleItem item sel)
    ∧ (item ∉ sel → item ∈ toggleItem item sel
        ∧ toggleItem item (toggleItem item sel) = sel) := by
  by_cases hm : item ∈ sel
  · have hc1 : sel.count item = 1 :=
      le_antisymm hcount (List.count_pos_iff.mpr hm)
    have hnot : item ∉ sel.erase item := by
      intro hin
      have hpos := List.count_pos_iff.mpr hin
      rw [List.count_erase_self, hc1] at hpos
      omega
    have h1 : toggleItem item sel = sel.erase item := if_pos hm
    have h2 : toggleItem item (sel.erase item) = sel.erase item ++ [item] :=
      if_neg hnot
    refine ⟨?_, fun _ => h1 ▸ hnot, fun hns => absurd hm hns⟩
    rw [h1, h2]
    exact (List.perm_append_singleton item _).trans (List.perm_cons_erase hm).symm
  · have h1 : toggleItem item sel = sel ++ [item] := if_neg hm
    have hmem : item ∈ sel ++ [item] := List.mem_append_right sel (List.mem_singleton.mpr rfl)
    have h2 : toggleItem item (sel ++ [item]) = sel := by
      rw [toggleItem, if_pos hmem, List.erase_append_right [item] hm,
        List.erase_cons_head, List.append_nil]
    refine ⟨?_, fun hin => absurd hin hm, fun _ => ⟨h1 ▸ hmem, h1 ▸ (h1 ▸ h2)⟩⟩
    rw [h1, h2]

/-- C3 witness: the amended theorem applied at a duplicate-free concrete
selection, for an unselected and a selected item. -/
theorem toggle_twice_restores_witness :
    (toggleItem "Фокус" (toggleItem "Фокус" ["Тепло"])).Perm ["Тепло"]
    ∧ ("Фокус" ∈ toggleItem "Фокус" ["Тепло"]
        ∧ toggleItem "Фокус" (toggleItem "Фокус" ["Тепло"]) = ["Тепло"])
    ∧ "Тепло" ∉ toggleItem "Тепло" ["Тепло", "Фокус"] := by
  have h1 := toggle_twice_restores ["Тепло"] "Фокус" (by decide)
  have h2 := toggle_twice_restores ["Тепло", "Фокус"] "Тепло" (by decide)
  exact ⟨h1.1, h1.2.2 (by decide), h2.2.1 (by decide)⟩

/-- Loop invariant for the sub-record segment: if the recorded sub-records
are numbered `1..m` and the counter reads `m + 1`, then `K` further loop
iterations extend the numbering to `1..m+K` and leave the counter at
`m + K + 1`, whatever each pass writes into the scratch fields. -/
theorem record_loop_inv (K : Nat) (curs : Nat → CurFields) (s : Session)
    (m : Nat)
    (hns : s.draft.infusions.map (fun i => i.n) = List.range' 1 m)
    (hctr : s.draft.infusion_n = m + 1) :
    (record_loop K curs s).draft.infusions.map (fun i => i.n)
        = List.range' 1 (m + K)
    ∧ (record_loop K curs s).draft.infusion_n = m + K + 1 := by
  induction K with
  | zero => exact ⟨hns, hctr⟩
  | succ k ih =>
    have hmap : (record_loop (k + 1) curs s).draft.infusions.map (fun i => i.n)
        = (record_loop k curs s).draft.infusions.map (fun i => i.n)
          ++ [(record_loop k curs s).draft.infusion_n] := by
      simp [record_loop, append_current_infusion, apply_infusion_steps]
    have hc : (record_loop (k + 1) curs s).draft.infusion_n
        = (record_loop k curs s).draft.infusion_n + 1 := by
      simp [record_loop, append_current_infusion, apply_infusion_steps]
    constructor
    · rw [hmap, ih.1, ih.2, show m + (k + 1) = (m + k) + 1 by omega,
        List.range'_concat]
      simp
      omega
    · rw [hc, ih.2]
      omega

/-- C4: a completed flow with `K` loop iterations (fresh draft, counter 1,
one flushed sub-record per iteration) yields children numbered exactly
`1..K`, duplicate- and gap-free, in insertion order — both in the draft's
accumulated list and in the child rows `finalize_save` assembles (their
sequence numbers are copied from the flushed dicts). -/
theorem infusion_numbering_no_gaps (K : Nat) (curs : Nat → CurFields)
    (s : Session) (uid tid : Nat) :
    ((record_loop K curs (start_new s uid)).draft.infusions.map (fun i => i.n)
        = List.range' 1 K)
    ∧ ((finalize_tx (record_loop K curs (start_new s uid)).draft tid).infusions.map
          (fun r => r.n) = List.range' 1 K)
    ∧ ((record_loop K curs (start_new s uid)).draft.infusions.map
          (fun i => i.n)).Nodup := by
  have h := record_loop_inv K curs (start_new s uid) 0 (by rfl) (by rfl)
  have h0 : (record_loop K curs (start_new s uid)).draft.infusions.map (fun i => i.n)
      = List.range' 1 K := by
    rw [h.1]
    simp
  refine ⟨h0, ?_, h0 ▸ List.nodup_range' 1 K⟩
  simp only [finalize_tx, List.map_map]
  exact h0

/-- Failing at any operation of a trace whose only commit is the final
operation leaves the committed store untouched: the adds were only ever
pending, and the rollback on session close discards them. -/
theorem runOps_fail_before_final_commit (l : List Op) (hl : Op.commit ∉ l) :
    ∀ (db : DB) (p : Pending) (k : Nat), k < l.length + 1 →
      runOps db p (l ++ [Op.commit]) (some k) = db := by
  induction l with
  | nil =>
    intro db p k hk
    have hk0 : k = 0 := by simp at hk; omega
    subst hk0
    simp [runOps]
  | cons op rest ih =>
    intro db p k hk
    have hop : op ≠ Op.commit := fun h => hl (h ▸ List.mem_cons_self op rest)
    have hrest : Op.commit ∉ rest := fun h => hl (List.mem_cons_of_mem op h)
    cases k with
    | zero => cases op <;> simp [runOps]
    | succ k =>
      rw [List.cons_append]
      cases op with
      | add_tasting r =>
        rw [show runOps db p (Op.add_tasting r :: (rest ++ [Op.commit])) (some (k + 1))
            = runOps db { p with tastings := p.tastings ++ [r] }
                (rest ++ [Op.commit]) (some k) by simp [runOps]]
        exact ih hrest db _ k (by simp at hk; omega)
      | add_infusion r =>
        rw [show runOps db p (Op.add_infusion r :: (rest ++ [Op.commit])) (some (k + 1))
            = runOps db { p with infusions := p.infusions ++ [r] }
                (rest ++ [Op.commit]) (some k) by simp [runOps]]
        exact ih hrest db _ k (by simp at hk; omega)
      | add_photo r =>
        rw [show runOps db p (Op.add_photo r :: (rest ++ [Op.commit])) (some (k + 1))
            = runOps db { p with photos := p.photos ++ [r] }
                (rest ++ [Op.commit]) (some k) by simp [runOps]]
        exact ih hrest db _ k (by simp at hk; omega)
      | commit => exact absurd rfl hop

/-- Running a trace whose only commit is the final operation to completion
commits exactly the initial pending rows plus the rows the adds queued. -/
theorem runOps_complete_commits_all (l : List Op) (hl : Op.commit ∉ l) :
    ∀ (db : DB) (p : Pending),
      runOps db p (l ++ [Op.commit]) none
        = applyPending db (pendAppend p (opsPending l)) := by
  induction l with
  | nil =>
    intro db p
    simp [runOps, opsPending, pendAppend]
  | cons op rest ih =>
    intro db p
    have hop : op ≠ Op.commit := fun h => hl (h ▸ List.mem_cons_self op rest)
    have hrest : Op.commit ∉ rest := fun h => hl (List.mem_cons_of_mem op h)
    rw [List.cons_append]
    cases op with
    | add_tasting r =>
      rw [show runOps db p (Op.add_tasting r :: (rest ++ [Op.commit])) none
          = runOps db { p with tastings := p.tastings ++ [r] }
              (rest ++ [Op.commit]) none by simp [runOps]]
      rw [ih hrest]
      simp [opsPending, pendAppend]
    | add_infusion r =>
      rw [show runOps db p (Op.add_infusion r :: (rest ++ [Op.commit])) none
          = runOps db { p with infusions := p.infusions ++ [r] }
              (rest ++ [Op.commit]) none by simp [runOps]]
      rw [ih hrest]
      simp [opsPending, pendAppend]
    | add_photo r =>
      rw [show runOps db p (Op.add_photo r :: (rest ++ [Op.commit])) none
          = runOps db { p with photos := p.photos ++ [r] }
              (rest ++ [Op.commit]) none by simp [runOps]]
      rw [ih hrest]
      simp [opsPending, pendAppend]
    | commit => exact absurd rfl hop

/-- Assembly `finalize_save` issues no commit before the final one. -/
theorem commit_not_mem_finalize_body (d : Draft) (tid : Nat) :
    Op.commit ∉ finalize_body d tid := by
  simp only [finalize_body, List.mem_cons, List.mem_append, List.mem_map]
  rintro (h | ⟨⟨i, -, h⟩ | ⟨f, -, h⟩⟩) <;> exact Op.noConfusion h

/-- The pending rows of `finalize_save`'s adds are exactly the draft's
parent, children and photos. -/
theorem opsPending_finalize_body (d : Draft) (tid : Nat) :
    opsPending (finalize_body d tid) = finalize_tx d tid := by
  suffices h : ∀ (infs : List InfusionRec) (phs : List String),
      opsPending (infs.map (fun inf => Op.add_infusion (infusion_row tid inf)) ++
          phs.map (fun fid => Op.add_photo { tasting_id := tid, file_id := fid }))
        = { tastings := [], infusions := infs.map (infusion_row tid),
            photos := phs.map (fun fid => ⟨tid, fid⟩) } by
    simp only [finalize_body, opsPending, h d.infusions d.new_photos, finalize_tx]
  intro infs phs
  induction infs with
  | nil =>
    induction phs with
    | nil => simp [opsPending]
    | cons f fs ihf =>
      simp only [List.map_nil, List.nil_append, List.map_cons, List.cons_append,
        List.append_eq, opsPending] at ihf ⊢
      rw [ihf]
  | cons i is ihi =>
    simp only [List.map_cons, List.cons_append, List.append_eq, opsPending] at ihi ⊢
    rw [ihi]

/-- C5: all-or-nothing assembly.  `finalize_save` adds the parent, every
sub-record row (sequence numbers copied unchanged) and every photo row
inside one session and commits once, at the very end — so a failure at
*any* point of the persistence leaves the visible store exactly as it was
(no parent, child or attachment row from the draft shows up), while an
untroubled run appends precisely the draft's parent, children and photos. -/
theorem finalize_save_atomic (d : Draft) (db : DB) :
    (∀ k, k < (finalize_save_ops d db.next_id).length →
        finalize_save d db (some k) = db)
    ∧ finalize_save d db none = applyPending db (finalize_tx d db.next_id)
    ∧ (finalize_tx d db.next_id).infusions.map (fun r => r.n)
        = d.infusions.map (fun i => i.n) := by
  refine ⟨fun k hk => ?_, ?_, ?_⟩
  · have hlen : (finalize_save_ops d db.next_id).length
        = (finalize_body d db.next_id).length + 1 := by
      simp [finalize_save_ops]
    exact runOps_fail_before_final_commit (finalize_body d db.next_id)
      (commit_not_mem_finalize_body d db.next_id) db {} k (by rw [hlen] at hk; exact hk)
  · rw [finalize_save, finalize_save_ops,
      runOps_complete_commits_all (finalize_body d db.next_id)
        (commit_not_mem_finalize_body d db.next_id) db {},
      opsPending_finalize_body]
    simp [pendAppend]
  · simp [finalize_tx, List.map_map, infusion_row]

/-- C5 witness: `sample_draft` against an empty store; failing at
operation 2 (the photo insert) leaves the store empty, completing appends
parent, child (sequence preserved) and photo. -/
theorem finalize_save_atomic_witness :
    finalize_save sample_draft { } (some 2) = { }
    ∧ finalize_save sample_draft { } none
      = applyPending { } (finalize_tx sample_draft 1) := by
  have h := finalize_save_atomic sample_draft { }
  exact ⟨h.1 2 (by decide), h.2.1⟩

/-- C6: the edit, delete and view handlers share one guard,
`if not t or t.user_id != uid`, evaluated before anything is written: for a
target that is missing **or** owned by another identity the store is left
unchanged and the reply is one fixed generic constant per handler
("Нет доступа к этой записи.", not-found card, `False`) — the same
constant in both cases, so the response does not reveal whether the record
exists. -/
theorem ownership_guard_uniform (db : DB) (uid tid : Nat)
    (h : ∀ r, find_tasting db tid = some r → r.user_id ≠ some uid) :
    del_ok_cb db uid tid = (db, "Нет доступа к этой записи.")
    ∧ open_card db uid tid = CardView.not_found
    ∧ (∀ ups, update_tasting_fields db tid uid ups = (db, false)) := by
  rcases hfind : find_tasting db tid with _ | r
  · refine ⟨?_, ?_, fun ups => ?_⟩
    · simp [del_ok_cb, noAccess, hfind]
    · simp [open_card, hfind]
    · by_cases hu : ups.isEmpty <;> simp [update_tasting_fields, hfind, hu]
  · have hb : (r.user_id != some uid) = true := bne_iff_ne.mpr (h r hfind)
    refine ⟨?_, ?_, fun ups => ?_⟩
    · simp [del_ok_cb, noAccess, hfind, hb]
    · simp [open_card, hfind, hb]
    · by_cases hu : ups.isEmpty <;> simp [update_tasting_fields, hfind, hu, hb]

/-- C6 witness: user 2 attacking record 5 (foreign) and record 6
(nonexistent) receives the identical generic reply, and nothing changes. -/
theorem ownership_guard_uniform_witness :
    del_ok_cb sample_db 2 5 = (sample_db, "Нет доступа к этой записи.")
    ∧ del_ok_cb sample_db 2 6 = (sample_db, "Нет доступа к этой записи.")
    ∧ open_card sample_db 2 5 = CardView.not_found
    ∧ update_tasting_fields sample_db 5 2 [fun r => { r with rating := 9 }]
        = (sample_db, false) := by
  have h5 := ownership_guard_uniform sample_db 2 5 (fun r hr => by
    rw [show find_tasting sample_db 5
        = some { id := 5, user_id := some 1, name := some "t" } from rfl] at hr
    injection hr with h
    subst h
    decide)
  have h6 := ownership_guard_uniform sample_db 2 6 (fun r hr => by
    rw [show find_tasting sample_db 6 = none from rfl] at hr
    exact Option.noConfusion hr)
  exact ⟨h5.1, h6.1, h5.2.1, h5.2.2 [fun r => { r with rating := 9 }]⟩

/-- C9: the photo-collection step's hard cap.  A photo event at a full
list of 3 is rejected with the explicit "Лимит 3 фото" re-prompt — not
silently dropped — and the list is untouched; below the cap exactly one
entry is appended; consequently, from the step's entry point (which resets
the list) no event sequence ever pushes the list past 3. -/
theorem photo_cap_enforced (s : Session) (fid : String) :
    (s.draft.new_photos.length ≤ 3 →
        (photo_add (some fid) s).1.draft.new_photos.length ≤ 3)
    ∧ (3 ≤ s.draft.new_photos.length →
        photo_add (some fid) s = (s, "Лимит 3 фото. Жми «Готово» или «Пропустить»."))
    ∧ (s.draft.new_photos.length < 3 →
        (photo_add (some fid) s).1.draft.new_photos = s.draft.new_photos ++ [fid])
    ∧ (∀ evs : List (Option String),
        ((evs.foldl (fun t ev => (photo_add ev t).1)
            (prompt_photos s)).draft.new_photos.length ≤ 3)) := by
  have step : ∀ (t : Session) (ev : Option String),
      t.draft.new_photos.length ≤ 3 →
      (photo_add ev t).1.draft.new_photos.length ≤ 3 := by
    intro t ev hlen
    cases ev with
    | none => simpa [photo_add] using hlen
    | some f =>
      by_cases hc : 3 ≤ t.draft.new_photos.length
      · simpa [photo_add, hc] using hlen
      · simp only [photo_add, hc, if_false, List.length_append, List.length_singleton]
        omega
  refine ⟨step s (some fid), fun h => ?_, fun h => ?_, fun evs => ?_⟩
  · simp [photo_add, h]
  · have hc : ¬ 3 ≤ s.draft.new_photos.length := by omega
    simp [photo_add, hc]
  · have aux : ∀ (l : List (Option String)) (t : Session),
        t.draft.new_photos.length ≤ 3 →
        ((l.foldl (fun t ev => (photo_add ev t).1) t).draft.new_photos.length ≤ 3) := by
      intro l
      induction l with
      | nil => intro t hlen; simpa using hlen
      | cons e es ih =>
        intro t hlen
        simp only [List.foldl_cons]
        exact ih _ (step t e hlen)
    exact aux evs (prompt_photos s) (by simp [prompt_photos])

/-- C9 witness: the at-cap rejection applied to a session already holding
three photos. -/
theorem photo_cap_enforced_witness :
    photo_add (some "d") { draft := { new_photos := ["a", "b", "c"] } }
      = ({ draft := { new_photos := ["a", "b", "c"] } },
         "Лимит 3 фото. Жми «Готово» или «Пропустить».") :=
  (photo_cap_enforced { draft := { new_photos := ["a", "b", "c"] } } "d").2.1 (by decide)

/-- A string whose character list is empty is the empty string. -/
theorem data_nil_eq_empty (s : String) (h : s.data = []) : s = "" :=
  String.ext (h.trans rfl)

/-- A join over a list containing a non-empty element is non-empty. -/
theorem pyJoin_ne_empty (sep : String) :
    ∀ (l : List String) (item : String), item ∈ l → item ≠ "" →
      pyJoin sep l ≠ "" := by
  intro l
  induction l with
  | nil => intro item h; cases h
  | cons x xs ih =>
    intro item hmem hne
    cases xs with
    | nil =>
      have hx : item = x := by simpa using hmem
      subst hx
      simpa [pyJoin] using hne
    | cons y ys =>
      intro hcontra
      have hdata : (x ++ sep ++ pyJoin sep (y :: ys)).data = [] :=
        congrArg String.data hcontra
      rw [String.data_append, String.data_append] at hdata
      simp only [List.append_eq_nil] at hdata
      rcases List.mem_cons.mp hmem with hx | hmem2
      · exact hne (data_nil_eq_empty item (hx ▸ hdata.1.1))
      · exact ih item hmem2 hne (data_nil_eq_empty _ hdata.2)

/-- C10: the "other" path of the effects multi-select appends the stripped
free text verbatim — no deduplication against the vocabulary or the
current selection, so duplicates are possible; a toggle for a matching
vocabulary item then runs `list.remove`, deleting only the **first**
occurrence, so a duplicate stays selected; `done` carries the selection on
untouched, and assembly joins the full list — duplicate included — into
the stored comma-separated field. -/
theorem eff_custom_duplicate_semantics (s : Session) (text item : String)
    (i : Int) (tid : Nat) :
    (s.draft.awaiting_custom_eff = true → pyStrip text ≠ "" →
        (eff_custom text s).draft.effects = s.draft.effects ++ [pyStrip text])
    ∧ (pyIndex EFFECTS i = some item → item ∈ s.draft.effects →
        eff_toggle_or_done (ToggleEvent.index i) s
          = some { s with draft := { s.draft with
              effects := s.draft.effects.erase item } })
    ∧ (2 ≤ s.draft.effects.count item → item ∈ s.draft.effects.erase item)
    ∧ (eff_toggle_or_done ToggleEvent.done s
        = some { s with step := some FlowState.scenarios })
    ∧ (item ∈ s.draft.effects → item ≠ "" →
        (finalize_parent s.draft tid).effects_csv
          = some (pyJoin "," s.draft.effects)) := by
  refine ⟨fun ha ht => ?_, fun hidx hmem => ?_, fun hcnt => ?_, rfl, fun hmem hne => ?_⟩
  · simp [eff_custom, ha, ht]
  · simp [eff_toggle_or_done, hidx, toggleItem, hmem]
  · have : 0 < (s.draft.effects.erase item).count item := by
      rw [List.count_erase_self]
      omega
    exact List.count_pos_iff.mp this
  · simp [finalize_parent, strOrNone,
      pyJoin_ne_empty "," s.draft.effects item hmem hne]

/-- C10 witness: entering "Тепло" as custom text duplicates the vocabulary
item; toggling index 0 removes only the first copy; the survivor is still
selected and lands in the joined csv. -/
theorem eff_custom_duplicate_semantics_witness :
    (eff_custom "Тепло" c10_before).draft.effects = ["Тепло", "Тепло"]
    ∧ eff_toggle_or_done (ToggleEvent.index 0) c10_dup
        = some { c10_dup with draft := { c10_dup.draft with effects := ["Тепло"] } }
    ∧ "Тепло" ∈ (["Тепло", "Тепло"] : List String).erase "Тепло"
    ∧ (finalize_parent c10_dup.draft 1).effects_csv = some "Тепло,Тепло" := by
  have h1 := eff_custom_duplicate_semantics c10_before "Тепло" "Тепло" 0 1
  have h2 := eff_custom_duplicate_semantics c10_dup "Тепло" "Тепло" 0 1
  refine ⟨(h1.1 rfl (by decide)).trans (by decide), ?_, ?_, ?_⟩
  · exact (h2.2.1 (by decide) (by decide)).trans (by decide)
  · exact h2.2.2.1 (by decide)
  · exact (h2.2.2.2.2 (by decide) (by decide)).trans (by decide)

end TeaBot
